import Mathlib

/-!
Shallow embedding of the City Registry Service (src/index.js), an Express
CRUD API over an in-memory array of city records, together with proofs of
the behavioural properties stated in its specification.

JavaScript objects are modelled as association lists in property-insertion
order (`Obj`); the object literal `{ k: v, ...body }` is modelled by `spread`,
which assigns the explicit property first and then each property of `body`
in order, later assignments overwriting earlier ones — exactly the ECMAScript
object-spread semantics the handlers rely on.  `parseInt` is modelled after
the ECMAScript definition with an undefined radix: leading whitespace is
skipped, an optional sign is read, a `0x`/`0X` prefix selects radix 16
(radix 10 otherwise), and the longest prefix of radix digits is converted;
no digits yields NaN, modelled as `none`.
-/

set_option linter.unusedVariables false

namespace CityApi

/-- JavaScript values as far as the handlers inspect them: numbers (the ids
are integers), strings, booleans, `null` and `undefined`. -/
inductive Jx where
  | num (n : Int)
  | str (s : String)
  | boolean (b : Bool)
  | null
  | undef
deriving DecidableEq, Repr

/-- A JavaScript object: its properties in insertion order. -/
abbrev Obj := List (String × Jx)

/-- Property lookup: the entry with the given key (objects keep their keys
distinct, so at most one entry matches). -/
def olookup : Obj → String → Option Jx
  | [], _ => none
  | p :: t, k => if p.1 = k then some p.2 else olookup t k

/-- JavaScript property read `o.k`: the stored value, or `undefined` when
the key is absent. -/
def oget (o : Obj) (k : String) : Jx :=
  (olookup o k).getD Jx.undef

/-- JavaScript property assignment `o[k] = v`: overwrite in place when the
key exists (keeping its position), append otherwise. -/
def oset : Obj → String → Jx → Obj
  | [], k, v => [(k, v)]
  | p :: t, k, v => if p.1 = k then (k, v) :: t else p :: oset t k v

/-- The object literal `{ ...base, ...src }`: assign every property of `src`,
in order, on top of `base`.  Used for `{ id: n, ...req.body }`. -/
def spread (base : Obj) (src : Obj) : Obj :=
  src.foldl (fun acc p => oset acc p.1 p.2) base

/-- A decimal digit of `parseInt`: its value, or `none` for any other
character. -/
def decDigit (c : Char) : Option Nat :=
  if c.isDigit then some (c.toNat - 48) else none

/-- A hexadecimal digit of `parseInt`: its value, or `none` for any other
character. -/
def hexDigit (c : Char) : Option Nat :=
  if c.isDigit then some (c.toNat - 48)
  else if 'a' ≤ c ∧ c ≤ 'f' then some (c.toNat - 87)
  else if 'A' ≤ c ∧ c ≤ 'F' then some (c.toNat - 55)
  else none

/-- The digit function selected by the radix (10 or 16). -/
def radixDigit (R : Nat) (c : Char) : Option Nat :=
  if R = 16 then hexDigit c else decDigit c

/-- The longest prefix of digit values recognised by `f`. -/
def takeDigits (f : Char → Option Nat) : List Char → List Nat
  | [] => []
  | c :: cs =>
    match f c with
    | some d => d :: takeDigits f cs
    | none => []

/-- The numeric value of a digit list in radix `R`. -/
def digitsVal (R : Nat) (ds : List Nat) : Nat :=
  ds.foldl (fun a d => a * R + d) 0

/-- The optional leading sign of `parseInt`'s input. -/
def splitSign (cs : List Char) : Int × List Char :=
  match cs with
  | [] => ((1 : Int), [])
  | c :: r =>
    if c = '-' then ((-1 : Int), r)
    else if c = '+' then ((1 : Int), r)
    else ((1 : Int), cs)

/-- With no radix argument, `parseInt` uses radix 16 when the (signless)
input starts with `0x` or `0X`, and radix 10 otherwise. -/
def splitRadix (cs : List Char) : Nat × List Char :=
  match cs with
  | a :: b :: r =>
    if a = '0' ∧ (b = 'x' ∨ b = 'X') then (16, r) else (10, cs)
  | _ => (10, cs)

/-- ECMAScript `parseInt` on a character list: whitespace, sign, radix
prefix, then the longest digit prefix; `none` models NaN. -/
def parseIntChars (cs : List Char) : Option Int :=
  let s1 := cs.dropWhile Char.isWhitespace
  let p1 := splitSign s1
  let p2 := splitRadix p1.2
  let ds := takeDigits (radixDigit p2.1) p2.2
  if ds = [] then none else some (p1.1 * (digitsVal p2.1 ds : Int))

/-- `parseInt(s)` as called by the route handlers (no radix argument). -/
def parseInt (s : String) : Option Int :=
  parseIntChars s.data

/-- The strict comparison `c.id === pid` of a record's `id` property with a
parsed path id: true exactly when the property is the number `n` and the
parse produced `n`; `NaN === x` is always false, so `none` never matches. -/
def idIs (c : Obj) (pid : Option Int) : Bool :=
  match pid with
  | some n =>
    match oget c "id" with
    | Jx.num m => m == n
    | _ => false
  | none => false

/-- The mutable module state of src/index.js: the `cities` array and the
`nextId` counter. -/
structure St where
  cities : List Obj
  nextId : Int
deriving DecidableEq, Repr

/-- The initial state: `cities` is the empty array, `nextId` is 3. -/
def initSt : St := ⟨[], 3⟩

/-- An HTTP response as produced by the handlers: a JSON object body, a
JSON array body, or an empty body, each with a status code. -/
inductive Resp where
  | objR (status : Nat) (body : Obj)
  | listR (status : Nat) (body : List Obj)
  | emptyR (status : Nat)
deriving DecidableEq, Repr

/-- The body `{ message: 'City not found' }`. -/
def cityNotFound : Obj := [("message", Jx.str "City not found")]

/-- The common 404 response of the id-addressed handlers. -/
def notFoundResp : Resp := Resp.objR 404 cityNotFound

/-- `GET /cities`: respond 200 with the whole array. -/
def listCities (s : St) : Resp :=
  Resp.listR 200 s.cities

/-- `GET /cities/:id`: `cities.find(c => c.id === parseInt(req.params.id))`,
200 with the city when found, else 404. -/
def getCity (s : St) (idParam : String) : Resp :=
  match s.cities.find? (fun c => idIs c (parseInt idParam)) with
  | some c => Resp.objR 200 c
  | none => notFoundResp

/-- `POST /cities`: build `{ id: nextId++, ...req.body }`, push it, respond
201 with the new record. -/
def createCity (s : St) (body : Obj) : St × Resp :=
  let newCity := spread [("id", Jx.num s.nextId)] body
  (⟨s.cities ++ [newCity], s.nextId + 1⟩, Resp.objR 201 newCity)

/-- `PUT /cities/:id`: find the index by parsed id; when found, replace the
record with `{ id: cities[index].id, ...req.body }` and respond 200 with it,
else 404. -/
def updateCity (s : St) (idParam : String) (body : Obj) : St × Resp :=
  match s.cities.findIdx? (fun c => idIs c (parseInt idParam)) with
  | some i =>
    let old := (s.cities[i]?).getD []
    let updated := spread [("id", oget old "id")] body
    (⟨s.cities.set i updated, s.nextId⟩, Resp.objR 200 updated)
  | none => (s, notFoundResp)

/-- `DELETE /cities/:id`: find the index by parsed id; when found,
`splice(index, 1)` and respond 204 with empty body, else 404. -/
def deleteCity (s : St) (idParam : String) : St × Resp :=
  match s.cities.findIdx? (fun c => idIs c (parseInt idParam)) with
  | some i => (⟨s.cities.eraseIdx i, s.nextId⟩, Resp.emptyR 204)
  | none => (s, notFoundResp)

/-- A client request, as far as it affects or reads the store. -/
inductive Op where
  | post (body : Obj)
  | put (idParam : String) (body : Obj)
  | del (idParam : String)
  | getOne (idParam : String)
  | list

/-- The state after handling one request. -/
def step (s : St) : Op → St
  | Op.post b => (createCity s b).1
  | Op.put p b => (updateCity s p b).1
  | Op.del p => (deleteCity s p).1
  | Op.getOne _ => s
  | Op.list => s

/-- The state after handling a sequence of requests. -/
def run (s : St) (ops : List Op) : St :=
  ops.foldl step s

/-- The ids the server assigns (the value of `nextId` consumed by
`nextId++`) along a request sequence, in order. -/
def assignedIds (s : St) : List Op → List Int
  | [] => []
  | op :: ops =>
    match op with
    | Op.post _ => s.nextId :: assignedIds (step s op) ops
    | _ => assignedIds (step s op) ops

/-- The decimal numeral of a natural number, digit characters in order. -/
def natChars (n : Nat) : List Char :=
  if h : n < 10 then [Nat.digitChar n]
  else natChars (n / 10) ++ [Nat.digitChar (n % 10)]
decreasing_by exact Nat.div_lt_self (by omega) (by omega)

/-! ### Association-list lemmas -/

theorem olookup_oset_self (o : Obj) (k : String) (v : Jx) :
    olookup (oset o k v) k = some v := by
  induction o with
  | nil => simp [oset, olookup]
  | cons p t ih =>
    by_cases h : p.1 = k
    · simp [oset, olookup, h]
    · simp [oset, olookup, h, ih]

theorem olookup_oset_ne (o : Obj) (k k' : String) (v : Jx) (h : k' ≠ k) :
    olookup (oset o k v) k' = olookup o k' := by
  induction o with
  | nil => simp [oset, olookup, Ne.symm h]
  | cons p t ih =>
    by_cases hp : p.1 = k
    · simp only [oset, if_pos hp, olookup]
      rw [if_neg (Ne.symm h), if_neg (by rw [hp]; exact Ne.symm h)]
    · simp only [oset, if_neg hp, olookup]
      rw [ih]

theorem olookup_eq_none_iff (o : Obj) (k : String) :
    olookup o k = none ↔ k ∉ o.map Prod.fst := by
  induction o with
  | nil => simp [olookup]
  | cons p t ih =>
    by_cases h : p.1 = k
    · simp [olookup, h]
    · simp only [olookup, if_neg h, ih, List.map_cons, List.mem_cons, not_or]
      exact ⟨fun hk => ⟨fun he => h he.symm, hk⟩, fun hh => hh.2⟩

theorem mem_of_olookup_eq_some {o : Obj} {k : String} {v : Jx}
    (h : olookup o k = some v) : (k, v) ∈ o := by
  induction o with
  | nil => simp [olookup] at h
  | cons p t ih =>
    by_cases hp : p.1 = k
    · simp only [olookup, if_pos hp, Option.some.injEq] at h
      subst h
      rw [← hp]
      exact List.mem_cons_self _ _
    · simp only [olookup, if_neg hp] at h
      exact List.mem_cons_of_mem _ (ih h)

theorem spread_nil (base : Obj) : spread base [] = base := rfl

theorem spread_cons (base : Obj) (p : String × Jx) (src : Obj) :
    spread base (p :: src) = spread (oset base p.1 p.2) src := rfl

theorem olookup_spread_not_mem {src : Obj} {k : String}
    (h : k ∉ src.map Prod.fst) (base : Obj) :
    olookup (spread base src) k = olookup base k := by
  induction src generalizing base with
  | nil => rfl
  | cons p t ih =>
    simp only [List.map_cons, List.mem_cons] at h
    push_neg at h
    rw [spread_cons, ih h.2, olookup_oset_ne _ _ _ _ h.1]

theorem olookup_spread_mem {src : Obj} {k : String} {v : Jx}
    (hnd : (src.map Prod.fst).Nodup) (hmem : (k, v) ∈ src) (base : Obj) :
    olookup (spread base src) k = some v := by
  induction src generalizing base with
  | nil => simp at hmem
  | cons p t ih =>
    simp only [List.map_cons, List.nodup_cons] at hnd
    rcases List.mem_cons.mp hmem with h | h
    · subst h
      rw [spread_cons, olookup_spread_not_mem hnd.1, olookup_oset_self]
    · rw [spread_cons]
      exact ih hnd.2 h _

/-- The fields of `{ id: x, ...body }` when `body` has no `id` key: `id`
maps to `x` and every other key maps exactly as in `body`. -/
theorem olookup_spread_id (body : Obj) (x : Jx) (k : String)
    (hnd : (body.map Prod.fst).Nodup) (hnoid : "id" ∉ body.map Prod.fst) :
    olookup (spread [("id", x)] body) k
      = if k = "id" then some x else olookup body k := by
  by_cases hk : k = "id"
  · subst hk
    rw [if_pos rfl, olookup_spread_not_mem hnoid]
    simp [olookup]
  · rw [if_neg hk]
    cases hv : olookup body k with
    | none =>
      have hkm : k ∉ body.map Prod.fst := (olookup_eq_none_iff body k).mp hv
      rw [olookup_spread_not_mem hkm]
      simp [olookup, Ne.symm hk]
    | some v => exact olookup_spread_mem hnd (mem_of_olookup_eq_some hv) _

/-! ### `idIs` lemmas -/

theorem idIs_none (c : Obj) : idIs c none = false := rfl

theorem idIs_some_iff (c : Obj) (n : Int) :
    idIs c (some n) = true ↔ oget c "id" = Jx.num n := by
  unfold idIs
  cases h : oget c "id" <;> simp [h]

/-! ### The id counter along request sequences -/

theorem step_nextId_le (s : St) (op : Op) : s.nextId ≤ (step s op).nextId := by
  cases op with
  | post b =>
    show s.nextId ≤ s.nextId + 1
    omega
  | put p b =>
    simp only [step, updateCity]
    split <;> simp
  | del p =>
    simp only [step, deleteCity]
    split <;> simp
  | getOne p => exact le_refl _
  | list => exact le_refl _

theorem mem_assignedIds_le (ops : List Op) :
    ∀ (s : St), ∀ x ∈ assignedIds s ops, s.nextId ≤ x := by
  induction ops with
  | nil =>
    intro s x hx
    simp [assignedIds] at hx
  | cons op ops ih =>
    intro s x hx
    have hstep := step_nextId_le s op
    cases op with
    | post b =>
      simp only [assignedIds] at hx
      rcases List.mem_cons.mp hx with rfl | hx'
      · exact le_refl _
      · exact le_trans hstep (ih _ x hx')
    | put p b => exact le_trans hstep (ih _ x hx)
    | del p => exact le_trans hstep (ih _ x hx)
    | getOne p => exact le_trans hstep (ih _ x hx)
    | list => exact le_trans hstep (ih _ x hx)

theorem assignedIds_pairwise (ops : List Op) :
    ∀ s : St, (assignedIds s ops).Pairwise (· < ·) := by
  induction ops with
  | nil =>
    intro s
    simp [assignedIds]
  | cons op ops ih =>
    intro s
    cases op with
    | post b =>
      simp only [assignedIds]
      rw [List.pairwise_cons]
      refine ⟨fun x hx => ?_, ih _⟩
      have h1 := mem_assignedIds_le ops (step s (Op.post b)) x hx
      have h2 : (step s (Op.post b)).nextId = s.nextId + 1 := rfl
      omega
    | put p b => exact ih _
    | del p => exact ih _
    | getOne p => exact ih _
    | list => exact ih _

theorem run_nextId_le (ops : List Op) : ∀ s : St, s.nextId ≤ (run s ops).nextId := by
  induction ops with
  | nil => intro s; exact le_refl _
  | cons op ops ih => intro s; exact le_trans (step_nextId_le s op) (ih (step s op))

/-! ### Character and digit lemmas -/

theorem isWhitespace_false_of_isDigit (c : Char) (h : c.isDigit = true) :
    c.isWhitespace = false := by
  have h1 : c ≠ ' ' := by rintro rfl; exact absurd h (by decide)
  have h2 : c ≠ '\t' := by rintro rfl; exact absurd h (by decide)
  have h3 : c ≠ '\r' := by rintro rfl; exact absurd h (by decide)
  have h4 : c ≠ '\n' := by rintro rfl; exact absurd h (by decide)
  simp [Char.isWhitespace, h1, h2, h3, h4]

theorem ne_minus_of_isDigit (c : Char) (h : c.isDigit = true) : c ≠ '-' := by
  rintro rfl; exact absurd h (by decide)

theorem ne_plus_of_isDigit (c : Char) (h : c.isDigit = true) : c ≠ '+' := by
  rintro rfl; exact absurd h (by decide)

theorem ne_x_of_isDigit (c : Char) (h : c.isDigit = true) : c ≠ 'x' := by
  rintro rfl; exact absurd h (by decide)

theorem ne_X_of_isDigit (c : Char) (h : c.isDigit = true) : c ≠ 'X' := by
  rintro rfl; exact absurd h (by decide)

theorem digitChar_isDigit : ∀ d : Nat, d < 10 → (Nat.digitChar d).isDigit = true := by
  decide

theorem digitChar_val : ∀ d : Nat, d < 10 → (Nat.digitChar d).toNat - 48 = d := by
  decide

/-! ### Decimal numerals round-trip through the model of `parseInt` -/

theorem natChars_digits (n : Nat) : ∀ c ∈ natChars n, c.isDigit = true := by
  induction n using Nat.strong_induction_on with
  | _ n ih =>
    rw [natChars]
    by_cases h : n < 10
    · rw [dif_pos h]
      intro c hc
      simp only [List.mem_singleton] at hc
      subst hc
      exact digitChar_isDigit n h
    · rw [dif_neg h]
      intro c hc
      rcases List.mem_append.mp hc with h1 | h1
      · exact ih (n / 10) (Nat.div_lt_self (by omega) (by omega)) c h1
      · simp only [List.mem_singleton] at h1
        subst h1
        exact digitChar_isDigit (n % 10) (Nat.mod_lt _ (by omega))

theorem natChars_ne_nil (n : Nat) : natChars n ≠ [] := by
  rw [natChars]
  split <;> simp

theorem digitsVal_natChars (n : Nat) :
    digitsVal 10 ((natChars n).map (fun c => c.toNat - 48)) = n := by
  induction n using Nat.strong_induction_on with
  | _ n ih =>
    rw [natChars]
    by_cases h : n < 10
    · rw [dif_pos h]
      simp only [List.map_cons, List.map_nil, digitsVal, List.foldl_cons, List.foldl_nil]
      rw [digitChar_val n h]
      omega
    · rw [dif_neg h]
      have ih' := ih (n / 10) (Nat.div_lt_self (by omega) (by omega))
      simp only [List.map_append, List.map_cons, List.map_nil, digitsVal,
        List.foldl_append, List.foldl_cons, List.foldl_nil] at ih' ⊢
      rw [digitChar_val (n % 10) (Nat.mod_lt _ (by omega)), ih']
      omega

theorem takeDigits_append_digits (l tl : List Char) (h : ∀ c ∈ l, c.isDigit = true) :
    takeDigits decDigit (l ++ tl)
      = l.map (fun c => c.toNat - 48) ++ takeDigits decDigit tl := by
  induction l with
  | nil => rfl
  | cons c t ih =>
    have hc : c.isDigit = true := h c (List.mem_cons_self _ _)
    have hdec : decDigit c = some (c.toNat - 48) := by simp [decDigit, hc]
    simp only [List.cons_append, takeDigits, hdec, List.map_cons]
    exact congrArg _ (ih (fun x hx => h x (List.mem_cons_of_mem _ hx)))

theorem takeDigits_eq_nil_of_no_digit (tl : List Char) (h : ∀ c ∈ tl, c.isDigit = false) :
    takeDigits decDigit tl = [] := by
  cases tl with
  | nil => rfl
  | cons c t =>
    have hc : c.isDigit = false := h c (List.mem_cons_self _ _)
    have hdec : decDigit c = none := by simp [decDigit, hc]
    simp only [takeDigits, hdec]

theorem radixDigit_ten : radixDigit 10 = decDigit := by
  funext c
  simp [radixDigit]

theorem splitSign_snd_subset (l : List Char) : (splitSign l).2 ⊆ l := by
  cases l with
  | nil => exact fun x hx => hx
  | cons a r =>
    show (if a = '-' then ((-1 : Int), r)
      else if a = '+' then ((1 : Int), r) else ((1 : Int), a :: r)).2 ⊆ a :: r
    split_ifs <;> first
      | exact List.subset_cons_self a r
      | exact fun x hx => hx

theorem splitRadix_no_digit (l : List Char) (h : ∀ c ∈ l, c.isDigit = false) :
    splitRadix l = (10, l) := by
  cases l with
  | nil => rfl
  | cons a t =>
    cases t with
    | nil => rfl
    | cons b r =>
      show (if a = '0' ∧ (b = 'x' ∨ b = 'X') then ((16 : Nat), r)
        else ((10 : Nat), a :: b :: r)) = _
      rw [if_neg]
      rintro ⟨h0, _⟩
      have ha := h a (List.mem_cons_self _ _)
      rw [h0] at ha
      exact absurd ha (by decide)

/-- A path segment made of decimal digits followed by non-digit characters
parses to the value of the digits, except for the hexadecimal escape
`0` followed by `x`/`X`. -/
theorem parseIntChars_decimal (ds tl : List Char)
    (hne : ds ≠ [])
    (hds : ∀ c ∈ ds, c.isDigit = true)
    (htl : ∀ c ∈ tl, c.isDigit = false)
    (hnohex : ¬(ds = ['0'] ∧ (tl.head? = some 'x' ∨ tl.head? = some 'X'))) :
    parseIntChars (ds ++ tl)
      = some ((digitsVal 10 (ds.map (fun c => c.toNat - 48)) : Nat) : Int) := by
  obtain ⟨d, ds', rfl⟩ : ∃ d ds', ds = d :: ds' := by
    cases ds with
    | nil => exact absurd rfl hne
    | cons d ds' => exact ⟨d, ds', rfl⟩
  have hd : d.isDigit = true := hds d (List.mem_cons_self _ _)
  have h1 : ((d :: ds') ++ tl).dropWhile Char.isWhitespace = d :: (ds' ++ tl) := by
    rw [List.cons_append, List.dropWhile_cons, isWhitespace_false_of_isDigit d hd]
    simp
  have h2 : splitSign (d :: (ds' ++ tl)) = (1, d :: (ds' ++ tl)) := by
    simp only [splitSign, if_neg (ne_minus_of_isDigit d hd), if_neg (ne_plus_of_isDigit d hd)]
  have h3 : splitRadix (d :: (ds' ++ tl)) = (10, d :: (ds' ++ tl)) := by
    rcases hsplit : ds' ++ tl with _ | ⟨b, r⟩
    · rfl
    · have hbfalse : ¬(d = '0' ∧ (b = 'x' ∨ b = 'X')) := by
        cases ds' with
        | nil =>
          simp only [List.nil_append] at hsplit
          intro hcond
          apply hnohex
          refine ⟨by rw [hcond.1], ?_⟩
          rcases hcond.2 with hx | hx
          · left; rw [hsplit, hx]; rfl
          · right; rw [hsplit, hx]; rfl
        | cons b' t' =>
          simp only [List.cons_append, List.cons.injEq] at hsplit
          have hb' : b'.isDigit = true := hds b' (by simp)
          rw [← hsplit.1]
          rintro ⟨_, hx | hx⟩
          · exact ne_x_of_isDigit b' hb' hx
          · exact ne_X_of_isDigit b' hb' hx
      show (if d = '0' ∧ (b = 'x' ∨ b = 'X') then ((16 : Nat), r)
        else ((10 : Nat), d :: b :: r)) = _
      rw [if_neg hbfalse]
  have h4 : takeDigits decDigit (d :: (ds' ++ tl)) = (d :: ds').map (fun c => c.toNat - 48) := by
    rw [← List.cons_append, takeDigits_append_digits _ _ hds,
      takeDigits_eq_nil_of_no_digit _ htl, List.append_nil]
  simp only [parseIntChars, h1, h2, h3, radixDigit_ten, h4]
  rw [if_neg (by simp)]
  rw [one_mul]

/-- The decimal numeral of `n` parses back to `n`. -/
theorem parseInt_mk_natChars (n : Nat) :
    parseInt (String.mk (natChars n)) = some (n : Int) := by
  have h := parseIntChars_decimal (natChars n) [] (natChars_ne_nil n) (natChars_digits n)
    (by intro c hc; simp at hc) (by rintro ⟨h1, h2 | h2⟩ <;> simp at h2)
  rw [List.append_nil] at h
  show parseIntChars (natChars n) = _
  rw [h, digitsVal_natChars]

/-- When the input has no decimal digit at all, `parseInt` yields NaN. -/
theorem parseIntChars_none_of_no_digit (cs : List Char)
    (h : ∀ c ∈ cs, c.isDigit = false) : parseIntChars cs = none := by
  have h1 : ∀ c ∈ cs.dropWhile Char.isWhitespace, c.isDigit = false :=
    fun c hc => h c ((List.dropWhile_sublist _).subset hc)
  have hds : ∀ c ∈ (splitSign (cs.dropWhile Char.isWhitespace)).2, c.isDigit = false :=
    fun c hc => h1 c (splitSign_snd_subset _ hc)
  have hrad := splitRadix_no_digit _ hds
  simp only [parseIntChars, hrad, radixDigit_ten, takeDigits_eq_nil_of_no_digit _ hds]
  rfl

/-! ### Not-found behaviour shared by the id-addressed handlers -/

theorem handlers_notFound (s : St) (idParam : String) (body : Obj)
    (h : ∀ c ∈ s.cities, idIs c (parseInt idParam) = false) :
    getCity s idParam = notFoundResp ∧
    updateCity s idParam body = (s, notFoundResp) ∧
    deleteCity s idParam = (s, notFoundResp) := by
  have hfind : s.cities.find? (fun c => idIs c (parseInt idParam)) = none := by
    rw [List.find?_eq_none]
    intro x hx
    simp [h x hx]
  have hidx : s.cities.findIdx? (fun c => idIs c (parseInt idParam)) = none := by
    rw [List.findIdx?_eq_none_iff]
    intro x hx
    exact h x hx
  exact ⟨by simp [getCity, hfind], by simp [updateCity, hidx], by simp [deleteCity, hidx]⟩

/-! ### Claim theorems -/

/-- C1: the claimed contract "the server-assigned id always wins over a
client-supplied `id`" fails on the code: `{ id: nextId++, ...req.body }`
spreads the body after the id assignment, so POST at the initial state
(`nextId = 3`) with body `{"id": 99, "name": "X"}` stores and returns a
record whose id is the client's 99, not the assigned 3 (the counter still
advances to 4). -/
theorem post_client_id_overrides_eval :
    createCity initSt [("id", Jx.num 99), ("name", Jx.str "X")]
      = (⟨[[("id", Jx.num 99), ("name", Jx.str "X")]], 4⟩,
         Resp.objR 201 [("id", Jx.num 99), ("name", Jx.str "X")])
    ∧ initSt.nextId = 3 ∧ Jx.num 99 ≠ Jx.num 3 := by
  decide

/-- C2: the claim that a record's id survives every PUT fails on the code:
`{ id: cities[index].id, ...req.body }` spreads the body after the preserved
id, so PUT on the record with id 3 with body `{"id": 7}` changes the stored
id from 3 to 7. -/
theorem put_client_id_overrides_eval :
    updateCity ⟨[[("id", Jx.num 3), ("name", Jx.str "A")]], 4⟩ "3" [("id", Jx.num 7)]
      = (⟨[[("id", Jx.num 7)]], 4⟩, Resp.objR 200 [("id", Jx.num 7)])
    ∧ Jx.num 7 ≠ Jx.num 3 := by
  decide

/-- C3: the claimed invariant "every stored record has a unique, non-null id"
is violated on a reachable state: from the empty store, POST {"name":"A"}
(assigned id 3) followed by POST {"id":3,"name":"B"} (client id 3 overrides
the assigned 4) leaves two records whose ids are both 3. -/
theorem duplicate_ids_reachable_eval :
    ((run initSt [Op.post [("name", Jx.str "A")],
        Op.post [("id", Jx.num 3), ("name", Jx.str "B")]]).cities.map
          (fun c => oget c "id")) = [Jx.num 3, Jx.num 3]
    ∧ ¬ ((run initSt [Op.post [("name", Jx.str "A")],
        Op.post [("id", Jx.num 3), ("name", Jx.str "B")]]).cities.map
          (fun c => oget c "id")).Nodup := by
  decide

/-- C4 (counterexample): a PUT body containing an `id` field refutes the
claim as stated over every body — the record after PUT on id 1 with body
`{"id": 7, "name": "B"}` carries id 7, not the original id 1 plus the body's
other fields. -/
theorem put_full_replace_cex :
    updateCity ⟨[[("id", Jx.num 1), ("name", Jx.str "A")]], 5⟩ "1"
        [("id", Jx.num 7), ("name", Jx.str "B")]
      = (⟨[[("id", Jx.num 7), ("name", Jx.str "B")]], 5⟩,
         Resp.objR 200 [("id", Jx.num 7), ("name", Jx.str "B")])
    ∧ olookup [("id", Jx.num 7), ("name", Jx.str "B")] "id" ≠ some (Jx.num 1) := by
  decide

/-- C4 (amended): for every stored record and PUT addressed to its id whose
body does not itself contain an `id` field, the updated record is exactly the
original `id` plus the fields of the body: `id` looks up to the original id
value and every other key looks up exactly as in the body, so fields absent
from the body are absent from the stored record. -/
theorem put_full_replace (s : St) (idParam : String) (body : Obj) (i : Nat)
    (hnd : (body.map Prod.fst).Nodup)
    (hnoid : "id" ∉ body.map Prod.fst)
    (hfind : s.cities.findIdx? (fun c => idIs c (parseInt idParam)) = some i) :
    ∃ old updated, s.cities[i]? = some old
      ∧ updated = spread [("id", oget old "id")] body
      ∧ updateCity s idParam body
          = (⟨s.cities.set i updated, s.nextId⟩, Resp.objR 200 updated)
      ∧ (∀ k, olookup updated k
          = if k = "id" then some (oget old "id") else olookup body k) := by
  have hlt : i < s.cities.length := by
    rcases List.findIdx?_eq_some_iff_getElem.mp hfind with ⟨h, _, _⟩
    exact h
  have hget : s.cities[i]? = some (s.cities.get ⟨i, hlt⟩) :=
    List.getElem?_eq_getElem hlt
  refine ⟨s.cities.get ⟨i, hlt⟩, spread [("id", oget (s.cities.get ⟨i, hlt⟩) "id")] body,
    hget, rfl, ?_, fun k => olookup_spread_id body _ k hnd hnoid⟩
  simp only [updateCity, hfind, hget, Option.getD_some]

theorem put_full_replace_witness :
    ((([("name", Jx.str "B")] : Obj).map Prod.fst).Nodup)
    ∧ ("id" ∉ ([("name", Jx.str "B")] : Obj).map Prod.fst)
    ∧ ((St.mk [[("id", Jx.num 1), ("name", Jx.str "A"), ("population", Jx.num 10)]] 2).cities.findIdx?
        (fun c => idIs c (parseInt "1")) = some 0)
    ∧ (∃ old updated,
        (St.mk [[("id", Jx.num 1), ("name", Jx.str "A"), ("population", Jx.num 10)]] 2).cities[0]?
          = some old
        ∧ updated = spread [("id", oget old "id")] [("name", Jx.str "B")]
        ∧ updateCity (St.mk [[("id", Jx.num 1), ("name", Jx.str "A"), ("population", Jx.num 10)]] 2)
            "1" [("name", Jx.str "B")]
          = (⟨(St.mk [[("id", Jx.num 1), ("name", Jx.str "A"), ("population", Jx.num 10)]] 2).cities.set
                0 updated,
              (St.mk [[("id", Jx.num 1), ("name", Jx.str "A"), ("population", Jx.num 10)]] 2).nextId⟩,
             Resp.objR 200 updated)
        ∧ (∀ k, olookup updated k
            = if k = "id" then some (oget old "id") else olookup [("name", Jx.str "B")] k)) :=
  ⟨by decide, by decide, by decide,
   put_full_replace (St.mk [[("id", Jx.num 1), ("name", Jx.str "A"), ("population", Jx.num 10)]] 2)
     "1" [("name", Jx.str "B")] 0 (by decide) (by decide) (by decide)⟩

/-- C5: POST with a valid creation payload (no `id` field) followed by GET of
the returned id returns exactly the payload plus the server-assigned id.
Stated for any state whose stored ids do not already use the id about to be
assigned — true of every state the server reaches under its id contract. -/
theorem post_then_get_roundtrip (s : St) (P : Obj)
    (hnd : (P.map Prod.fst).Nodup)
    (hnoid : "id" ∉ P.map Prod.fst)
    (hpos : 0 ≤ s.nextId)
    (hfresh : ∀ c ∈ s.cities, oget c "id" ≠ Jx.num s.nextId) :
    ∃ newCity,
      createCity s P = (⟨s.cities ++ [newCity], s.nextId + 1⟩, Resp.objR 201 newCity)
      ∧ getCity (createCity s P).1 (String.mk (natChars s.nextId.toNat)) = Resp.objR 200 newCity
      ∧ olookup newCity "id" = some (Jx.num s.nextId)
      ∧ (∀ k, k ≠ "id" → olookup newCity k = olookup P k) := by
  refine ⟨spread [("id", Jx.num s.nextId)] P, rfl, ?_, ?_, ?_⟩
  · have hparse : parseInt (String.mk (natChars s.nextId.toNat)) = some s.nextId := by
      rw [parseInt_mk_natChars, Int.toNat_of_nonneg hpos]
    have hid : olookup (spread [("id", Jx.num s.nextId)] P) "id" = some (Jx.num s.nextId) := by
      rw [olookup_spread_id P _ _ hnd hnoid]
      simp
    have hmatch : idIs (spread [("id", Jx.num s.nextId)] P) (some s.nextId) = true := by
      rw [idIs_some_iff, oget, hid]
      rfl
    have hnone : s.cities.find? (fun c => idIs c (some s.nextId)) = none := by
      rw [List.find?_eq_none]
      intro c hc
      rw [idIs_some_iff]
      exact hfresh c hc
    have hsingle : List.find? (fun c => idIs c (some s.nextId)) [spread [("id", Jx.num s.nextId)] P]
        = some (spread [("id", Jx.num s.nextId)] P) := by
      simp only [List.find?, hmatch]
    show getCity ⟨s.cities ++ [spread [("id", Jx.num s.nextId)] P], s.nextId + 1⟩ _ = _
    simp only [getCity, hparse, List.find?_append, hnone, hsingle, Option.or]
  · rw [olookup_spread_id P _ _ hnd hnoid]
    simp
  · intro k hk
    rw [olookup_spread_id P _ _ hnd hnoid, if_neg hk]

theorem post_then_get_roundtrip_witness :
    ((([("name", Jx.str "Addis Ababa")] : Obj).map Prod.fst).Nodup)
    ∧ ("id" ∉ ([("name", Jx.str "Addis Ababa")] : Obj).map Prod.fst)
    ∧ (0 ≤ initSt.nextId)
    ∧ (∀ c ∈ initSt.cities, oget c "id" ≠ Jx.num initSt.nextId)
    ∧ (∃ newCity,
        createCity initSt [("name", Jx.str "Addis Ababa")]
          = (⟨initSt.cities ++ [newCity], initSt.nextId + 1⟩, Resp.objR 201 newCity)
        ∧ getCity (createCity initSt [("name", Jx.str "Addis Ababa")]).1
            (String.mk (natChars initSt.nextId.toNat)) = Resp.objR 200 newCity
        ∧ olookup newCity "id" = some (Jx.num initSt.nextId)
        ∧ (∀ k, k ≠ "id" → olookup newCity k = olookup [("name", Jx.str "Addis Ababa")] k)) :=
  ⟨by decide, by decide, by decide, by decide,
   post_then_get_roundtrip initSt [("name", Jx.str "Addis Ababa")]
     (by decide) (by decide) (by decide) (by decide)⟩

/-- C6: along every request sequence from process start the list of
server-assigned ids is strictly increasing — each assigned id exceeds every
id assigned before it, whatever put/delete/get requests intervene — and the
id counter never decreases along any sequence from any state. -/
theorem assigned_ids_monotone :
    (∀ ops : List Op, (assignedIds initSt ops).Pairwise (· < ·))
    ∧ (∀ (s : St) (ops : List Op), s.nextId ≤ (run s ops).nextId) :=
  ⟨fun ops => assignedIds_pairwise ops initSt, fun s ops => run_nextId_le ops s⟩

/-- C7: GET, PUT and DELETE on an id that matches no stored record each
return 404 with body `{"message":"City not found"}` and leave the store
unchanged. -/
theorem not_found_404 (s : St) (idParam : String) (body : Obj)
    (h : ∀ c ∈ s.cities, idIs c (parseInt idParam) = false) :
    getCity s idParam = Resp.objR 404 [("message", Jx.str "City not found")]
    ∧ updateCity s idParam body = (s, Resp.objR 404 [("message", Jx.str "City not found")])
    ∧ deleteCity s idParam = (s, Resp.objR 404 [("message", Jx.str "City not found")]) :=
  handlers_notFound s idParam body h

theorem not_found_404_witness :
    (∀ c ∈ (St.mk [[("id", Jx.num 3)]] 4).cities, idIs c (parseInt "999999") = false)
    ∧ (getCity (St.mk [[("id", Jx.num 3)]] 4) "999999"
        = Resp.objR 404 [("message", Jx.str "City not found")]
      ∧ updateCity (St.mk [[("id", Jx.num 3)]] 4) "999999" [("name", Jx.str "Q")]
        = (St.mk [[("id", Jx.num 3)]] 4, Resp.objR 404 [("message", Jx.str "City not found")])
      ∧ deleteCity (St.mk [[("id", Jx.num 3)]] 4) "999999"
        = (St.mk [[("id", Jx.num 3)]] 4, Resp.objR 404 [("message", Jx.str "City not found")])) :=
  ⟨by decide,
   not_found_404 (St.mk [[("id", Jx.num 3)]] 4) "999999" [("name", Jx.str "Q")] (by decide)⟩

/-- C8: the list operation returns the stored collection, which creation
extends at the end (insertion order); and deleting a stored record by its id
removes exactly one element — the one at the first matching index — leaving
every other record in its previous relative order. -/
theorem list_order_delete_one (s : St) (idParam : String) (c : Obj)
    (hc : c ∈ s.cities) (hid : idIs c (parseInt idParam) = true) :
    listCities s = Resp.listR 200 s.cities
    ∧ (∀ b : Obj, (createCity s b).1.cities = s.cities ++ [spread [("id", Jx.num s.nextId)] b])
    ∧ ∃ i, s.cities.findIdx? (fun x => idIs x (parseInt idParam)) = some i
        ∧ deleteCity s idParam
            = (⟨s.cities.take i ++ s.cities.drop (i + 1), s.nextId⟩, Resp.emptyR 204)
        ∧ (s.cities.take i ++ s.cities.drop (i + 1)).length + 1 = s.cities.length
        ∧ (s.cities.take i ++ s.cities.drop (i + 1)).Sublist s.cities := by
  refine ⟨rfl, fun b => rfl, ?_⟩
  obtain ⟨i, hfind⟩ : ∃ i, s.cities.findIdx? (fun x => idIs x (parseInt idParam)) = some i :=
    ⟨_, List.findIdx?_eq_some_of_exists ⟨c, hc, hid⟩⟩
  have hlt : i < s.cities.length := by
    rcases List.findIdx?_eq_some_iff_getElem.mp hfind with ⟨h, _, _⟩
    exact h
  refine ⟨i, hfind, ?_, ?_, ?_⟩
  · simp only [deleteCity, hfind]
    rw [List.eraseIdx_eq_take_drop_succ]
  · rw [← List.eraseIdx_eq_take_drop_succ, List.length_eraseIdx_of_lt hlt]
    omega
  · rw [← List.eraseIdx_eq_take_drop_succ]
    exact List.eraseIdx_sublist _ _

theorem list_order_delete_one_witness :
    (([("id", Jx.num 2)] : Obj) ∈
      (St.mk [[("id", Jx.num 1)], [("id", Jx.num 2)], [("id", Jx.num 3)]] 4).cities)
    ∧ (idIs [("id", Jx.num 2)] (parseInt "2") = true)
    ∧ (listCities (St.mk [[("id", Jx.num 1)], [("id", Jx.num 2)], [("id", Jx.num 3)]] 4)
        = Resp.listR 200
            (St.mk [[("id", Jx.num 1)], [("id", Jx.num 2)], [("id", Jx.num 3)]] 4).cities
      ∧ (∀ b : Obj,
          (createCity (St.mk [[("id", Jx.num 1)], [("id", Jx.num 2)], [("id", Jx.num 3)]] 4) b).1.cities
            = (St.mk [[("id", Jx.num 1)], [("id", Jx.num 2)], [("id", Jx.num 3)]] 4).cities
              ++ [spread [("id", Jx.num
                    (St.mk [[("id", Jx.num 1)], [("id", Jx.num 2)], [("id", Jx.num 3)]] 4).nextId)] b])
      ∧ ∃ i, (St.mk [[("id", Jx.num 1)], [("id", Jx.num 2)], [("id", Jx.num 3)]] 4).cities.findIdx?
            (fun x => idIs x (parseInt "2")) = some i
          ∧ deleteCity (St.mk [[("id", Jx.num 1)], [("id", Jx.num 2)], [("id", Jx.num 3)]] 4) "2"
              = (⟨(St.mk [[("id", Jx.num 1)], [("id", Jx.num 2)], [("id", Jx.num 3)]] 4).cities.take i
                    ++ (St.mk [[("id", Jx.num 1)], [("id", Jx.num 2)], [("id", Jx.num 3)]] 4).cities.drop (i + 1),
                  (St.mk [[("id", Jx.num 1)], [("id", Jx.num 2)], [("id", Jx.num 3)]] 4).nextId⟩,
                 Resp.emptyR 204)
          ∧ ((St.mk [[("id", Jx.num 1)], [("id", Jx.num 2)], [("id", Jx.num 3)]] 4).cities.take i
              ++ (St.mk [[("id", Jx.num 1)], [("id", Jx.num 2)], [("id", Jx.num 3)]] 4).cities.drop (i + 1)).length + 1
            = (St.mk [[("id", Jx.num 1)], [("id", Jx.num 2)], [("id", Jx.num 3)]] 4).cities.length
          ∧ ((St.mk [[("id", Jx.num 1)], [("id", Jx.num 2)], [("id", Jx.num 3)]] 4).cities.take i
              ++ (St.mk [[("id", Jx.num 1)], [("id", Jx.num 2)], [("id", Jx.num 3)]] 4).cities.drop (i + 1)).Sublist
            (St.mk [[("id", Jx.num 1)], [("id", Jx.num 2)], [("id", Jx.num 3)]] 4).cities) :=
  ⟨by decide, by decide,
   list_order_delete_one (St.mk [[("id", Jx.num 1)], [("id", Jx.num 2)], [("id", Jx.num 3)]] 4)
     "2" [("id", Jx.num 2)] (by decide) (by decide)⟩

/-- C9: a non-numeric path segment — one containing no decimal digit at all —
parses to NaN (`none`), matches no record, and each id-addressed handler
returns the ordinary 404 not-found response, leaving the store unchanged;
there is no distinct parse error. -/
theorem non_numeric_404 (s : St) (idParam : String) (body : Obj)
    (h : ∀ c ∈ idParam.data, c.isDigit = false) :
    parseInt idParam = none
    ∧ getCity s idParam = Resp.objR 404 [("message", Jx.str "City not found")]
    ∧ updateCity s idParam body = (s, Resp.objR 404 [("message", Jx.str "City not found")])
    ∧ deleteCity s idParam = (s, Resp.objR 404 [("message", Jx.str "City not found")]) := by
  have hp : parseInt idParam = none := parseIntChars_none_of_no_digit _ h
  have hfalse : ∀ c ∈ s.cities, idIs c (parseInt idParam) = false := by
    intro c hc
    rw [hp]
    exact idIs_none c
  exact ⟨hp, handlers_notFound s idParam body hfalse⟩

theorem non_numeric_404_witness :
    (∀ c ∈ "abc".data, c.isDigit = false)
    ∧ (parseInt "abc" = none
      ∧ getCity (St.mk [[("id", Jx.num 3)]] 4) "abc"
          = Resp.objR 404 [("message", Jx.str "City not found")]
      ∧ updateCity (St.mk [[("id", Jx.num 3)]] 4) "abc" [("name", Jx.str "Q")]
          = (St.mk [[("id", Jx.num 3)]] 4, Resp.objR 404 [("message", Jx.str "City not found")])
      ∧ deleteCity (St.mk [[("id", Jx.num 3)]] 4) "abc"
          = (St.mk [[("id", Jx.num 3)]] 4, Resp.objR 404 [("message", Jx.str "City not found")])) :=
  ⟨by decide,
   non_numeric_404 (St.mk [[("id", Jx.num 3)]] 4) "abc" [("name", Jx.str "Q")] (by decide)⟩

/-- C10 is false as stated: the segment "0xA" consists of the digit
characters "0" (the integer 0) followed by the non-digit characters "xA",
and a record with id 0 exists, yet GET and DELETE return the 404 not-found
response, because `parseInt` reads "0xA" as the hexadecimal numeral 10. -/
theorem leading_int_segment_cex :
    ("0xA".data = ['0', 'x', 'A'])
    ∧ ('0'.isDigit = true) ∧ ('x'.isDigit = false) ∧ ('A'.isDigit = false)
    ∧ (digitsVal 10 (['0'].map (fun c => c.toNat - 48)) = 0)
    ∧ (oget [("id", Jx.num 0), ("name", Jx.str "Zero")] "id" = Jx.num 0)
    ∧ parseInt "0xA" = some 10
    ∧ getCity ⟨[[("id", Jx.num 0), ("name", Jx.str "Zero")]], 5⟩ "0xA"
        = Resp.objR 404 [("message", Jx.str "City not found")]
    ∧ deleteCity ⟨[[("id", Jx.num 0), ("name", Jx.str "Zero")]], 5⟩ "0xA"
        = (⟨[[("id", Jx.num 0), ("name", Jx.str "Zero")]], 5⟩,
           Resp.objR 404 [("message", Jx.str "City not found")]) := by
  decide

/-- C10 (amended): for get, update and delete, a path segment whose leading
characters are decimal digits of value n followed by non-digit characters is
treated as id n — except when the digits are exactly "0" and the next
character is x or X, which `parseInt` reads as a hexadecimal radix prefix
instead. When a record with id n exists, the operation applies to the first
such record rather than returning 404. -/
theorem leading_int_segment (ds tl : List Char) (s : St) (n : Nat)
    (hne : ds ≠ [])
    (hds : ∀ c ∈ ds, c.isDigit = true)
    (htl : ∀ c ∈ tl, c.isDigit = false)
    (hnohex : ¬(ds = ['0'] ∧ (tl.head? = some 'x' ∨ tl.head? = some 'X')))
    (hval : digitsVal 10 (ds.map (fun c => c.toNat - 48)) = n)
    (hex : ∃ c ∈ s.cities, idIs c (some (n : Int)) = true) :
    parseInt (String.mk (ds ++ tl)) = some (n : Int)
    ∧ (∃ r, s.cities.find? (fun c => idIs c (some (n : Int))) = some r
        ∧ getCity s (String.mk (ds ++ tl)) = Resp.objR 200 r)
    ∧ (∃ i, s.cities.findIdx? (fun c => idIs c (some (n : Int))) = some i
        ∧ deleteCity s (String.mk (ds ++ tl))
            = (⟨s.cities.eraseIdx i, s.nextId⟩, Resp.emptyR 204)
        ∧ ∀ body : Obj, ∃ u, updateCity s (String.mk (ds ++ tl)) body
            = (⟨s.cities.set i u, s.nextId⟩, Resp.objR 200 u)) := by
  have hparse : parseInt (String.mk (ds ++ tl)) = some (n : Int) := by
    show parseIntChars (ds ++ tl) = _
    rw [parseIntChars_decimal ds tl hne hds htl hnohex, hval]
  refine ⟨hparse, ?_, ?_⟩
  · have hsome : (s.cities.find? (fun c => idIs c (some (n : Int)))).isSome := by
      rw [List.find?_isSome]
      obtain ⟨c, hc, hcid⟩ := hex
      exact ⟨c, hc, hcid⟩
    obtain ⟨r, hr⟩ := Option.isSome_iff_exists.mp hsome
    refine ⟨r, hr, ?_⟩
    simp only [getCity, hparse, hr]
  · obtain ⟨c, hc, hcid⟩ := hex
    obtain ⟨i, hfind⟩ : ∃ i, s.cities.findIdx? (fun c => idIs c (some (n : Int))) = some i :=
      ⟨_, List.findIdx?_eq_some_of_exists (p := fun c => idIs c (some (n : Int))) ⟨c, hc, hcid⟩⟩
    refine ⟨i, hfind, ?_, ?_⟩
    · simp only [deleteCity, hparse, hfind]
    · intro body
      exact ⟨spread [("id", oget ((s.cities[i]?).getD []) "id")] body,
        by simp only [updateCity, hparse, hfind]⟩

theorem leading_int_segment_witness :
    ((['5'] : List Char) ≠ [])
    ∧ (∀ c ∈ (['5'] : List Char), c.isDigit = true)
    ∧ (∀ c ∈ (['a', 'b', 'c'] : List Char), c.isDigit = false)
    ∧ (¬((['5'] : List Char) = ['0']
        ∧ ((['a', 'b', 'c'] : List Char).head? = some 'x'
          ∨ (['a', 'b', 'c'] : List Char).head? = some 'X')))
    ∧ (digitsVal 10 ((['5'] : List Char).map (fun c => c.toNat - 48)) = 5)
    ∧ (∃ c ∈ (St.mk [[("id", Jx.num 5), ("name", Jx.str "Five")]] 9).cities,
        idIs c (some ((5 : Nat) : Int)) = true)
    ∧ (parseInt (String.mk (['5'] ++ ['a', 'b', 'c'])) = some ((5 : Nat) : Int)
      ∧ (∃ r, (St.mk [[("id", Jx.num 5), ("name", Jx.str "Five")]] 9).cities.find?
            (fun c => idIs c (some ((5 : Nat) : Int))) = some r
          ∧ getCity (St.mk [[("id", Jx.num 5), ("name", Jx.str "Five")]] 9)
              (String.mk (['5'] ++ ['a', 'b', 'c'])) = Resp.objR 200 r)
      ∧ (∃ i, (St.mk [[("id", Jx.num 5), ("name", Jx.str "Five")]] 9).cities.findIdx?
            (fun c => idIs c (some ((5 : Nat) : Int))) = some i
          ∧ deleteCity (St.mk [[("id", Jx.num 5), ("name", Jx.str "Five")]] 9)
              (String.mk (['5'] ++ ['a', 'b', 'c']))
            = (⟨(St.mk [[("id", Jx.num 5), ("name", Jx.str "Five")]] 9).cities.eraseIdx i,
                (St.mk [[("id", Jx.num 5), ("name", Jx.str "Five")]] 9).nextId⟩, Resp.emptyR 204)
          ∧ ∀ body : Obj, ∃ u,
              updateCity (St.mk [[("id", Jx.num 5), ("name", Jx.str "Five")]] 9)
                  (String.mk (['5'] ++ ['a', 'b', 'c'])) body
                = (⟨(St.mk [[("id", Jx.num 5), ("name", Jx.str "Five")]] 9).cities.set i u,
                    (St.mk [[("id", Jx.num 5), ("name", Jx.str "Five")]] 9).nextId⟩,
                   Resp.objR 200 u))) :=
  ⟨by decide, by decide, by decide, by decide, by decide, by decide,
   leading_int_segment ['5'] ['a', 'b', 'c']
     (St.mk [[("id", Jx.num 5), ("name", Jx.str "Five")]] 9) 5
     (by decide) (by decide) (by decide) (by decide) (by decide) (by decide)⟩

end CityApi

-- sanity checks (evaluation of the model on concrete inputs)
example : CityApi.parseInt "5abc" = some 5 := by decide
example : CityApi.parseInt "abc" = none := by decide
example : CityApi.parseInt "0xA" = some 10 := by decide
example : CityApi.parseInt "-12" = some (-12) := by decide
example : CityApi.parseInt "" = none := by decide
example : CityApi.parseInt " 42 " = some 42 := by decide
example : CityApi.parseInt "999999" = some 999999 := by decide
example :
    CityApi.spread [("id", CityApi.Jx.num 3)] [("id", CityApi.Jx.num 99)]
      = [("id", CityApi.Jx.num 99)] := by decide
